import Mathlib

/-!
Verification development for the goja-runner wrapper (package jsrunner).

The repository is thin glue over the goja JavaScript engine and the
goja_nodejs event loop.  We shallowly embed the wrapper's own logic
(argument formatting, global registries, error wrapping, the
AwaitPromise polling state machine, the RunAsyncWithTimeout race, the
setupVM re-binding step) as executable Lean definitions.  The engine
and the loop are external collaborators; they are modelled at their
interface boundary exactly as the code consumes them: run-source on a
small source grammar, a timer queue ordered by fire time, FIFO aux
jobs.  JavaScript numbers are carried as an exact numeric pair
(integers and rationals) because no claim exercises IEEE rounding;
only identity of values flows through the wrapper.
-/

namespace GojaRunner

/-- Script-engine values at the goja boundary (`goja.Value`), restricted to
the shapes the wrapper's claims exercise.  `fn tag` stands for a callable
host function bound into the VM (e.g. the fetch helpers). -/
inductive JSValue
  | undefined
  | null
  | str (s : String)
  | int (n : Int)
  | float (q : ℚ)
  | bool (b : Bool)
  | fn (tag : String)
deriving DecidableEq

/-- Host-language (Go) values the wrapper marshals into the VM:
`interface{}` restricted to the primitives plus callable helpers. -/
inductive GoValue
  | str (s : String)
  | int (n : Int)
  | float (q : ℚ)
  | bool (b : Bool)
  | fn (tag : String)
deriving DecidableEq

/-- `vm.Set(name, value)` marshaling of a Go value into a goja value
(the engine's bind-global boundary, §6 of the spec). -/
def marshal : GoValue → JSValue
  | .str s => .str s
  | .int n => .int n
  | .float q => .float q
  | .bool b => .bool b
  | .fn tag => .fn tag

/-- `goja.Value.Export()`: JavaScript null and undefined export as the Go
nil interface (modelled as `none`); primitives export to their natural
Go equivalents. -/
def exportJS : JSValue → Option GoValue
  | .undefined => none
  | .null => none
  | .str s => some (.str s)
  | .int n => some (.int n)
  | .float q => some (.float q)
  | .bool b => some (.bool b)
  | .fn tag => some (.fn tag)

/-- `goja.Value.String()`: the engine's native stringification.  Rational
literals stand in for JS number formatting; no claim depends on the exact
digits of a float rendering. -/
def JSValue.toStr : JSValue → String
  | .undefined => "undefined"
  | .null => "null"
  | .str s => s
  | .int n => toString n
  | .float q => toString q
  | .bool b => if b then ("true") else ("false")
  | .fn _ => "function"

/-- `goja.Value.ToInteger()`: numeric coercion with truncation toward
zero (`Int.div` truncates toward zero). -/
def JSValue.toInteger : JSValue → Int
  | .undefined => 0
  | .null => 0
  | .str _ => 0
  | .int n => n
  | .float q => Int.tdiv q.num q.den
  | .bool b => if b then 1 else 0
  | .fn _ => 0

/-- `goja.Value.ToFloat()`: numeric coercion to a JS number. -/
def JSValue.toFloat : JSValue → ℚ
  | .undefined => 0
  | .null => 0
  | .str _ => 0
  | .int n => n
  | .float q => q
  | .bool b => if b then 1 else 0
  | .fn _ => 0

/-- `goja.Value.ToBoolean()`: JavaScript truthiness (falsy: false, 0,
empty string, null, undefined; everything else truthy). -/
def JSValue.toBoolean : JSValue → Bool
  | .undefined => false
  | .null => false
  | .str s => decide (s ≠ "")
  | .int n => decide (n ≠ 0)
  | .float q => decide (q ≠ 0)
  | .bool b => b
  | .fn _ => true

/-- `ExportString(val goja.Value) string`: nil reference yields the empty
string, otherwise `val.String()`. -/
def ExportString : Option JSValue → String
  | none => ""
  | some v => v.toStr

/-- `ExportInt(val goja.Value) int64`: nil reference yields 0, otherwise
`val.ToInteger()`. -/
def ExportInt : Option JSValue → Int
  | none => 0
  | some v => v.toInteger

/-- `ExportFloat(val goja.Value) float64`: nil reference yields 0,
otherwise `val.ToFloat()`. -/
def ExportFloat : Option JSValue → ℚ
  | none => 0
  | some v => v.toFloat

/-- `ExportBool(val goja.Value) bool`: nil reference yields false,
otherwise `val.ToBoolean()`. -/
def ExportBool : Option JSValue → Bool
  | none => false
  | some v => v.toBoolean

/-- `Export(val goja.Value) interface{}`: nil reference yields nil,
otherwise `val.Export()`. -/
def Export : Option JSValue → Option GoValue
  | none => none
  | some v => exportJS v

/-- The engine's global bindings (`goja.Runtime` global object), as a
lookup function from names to bound values. -/
def VMMap : Type := String → Option JSValue

/-- The wrapper's registry of host-set globals (`globals map[string]interface{}`),
as a lookup function (Go maps have unique keys; last write wins). -/
def GlobalReg : Type := String → Option GoValue

def emptyVM : VMMap := fun _ => none

def emptyReg : GlobalReg := fun _ => none

/-- Point update of the VM's global bindings (`vm.Set`). -/
def updateVM (vm : VMMap) (name : String) (v : JSValue) : VMMap :=
  fun n => if n = name then some v else vm n

/-- Point update of the host-side registry (`r.globals[name] = value`). -/
def updateReg (g : GlobalReg) (name : String) (v : GoValue) : GlobalReg :=
  fun n => if n = name then some v else g n

/-! ## Source texts and the run-source boundary

`vm.RunString(code)` is the engine's run-source boundary (spec §6).  We
embed source texts as the shapes the wrapper's claims exercise: literal
expressions, bare identifiers, a single global assignment, an expression
evaluating to a promise that settles after some number of loop ticks,
and malformed text.  A malformed text carries the global mutations its
(unparsable) body would have performed: goja parses a program in full
before executing any of it, so a syntax error executes nothing. -/

/-- How a promise embedded in a source text eventually settles. -/
inductive PromiseOutcome
  | fulfill (v : JSValue)
  | reject (reason : JSValue)
deriving DecidableEq

/-- Source texts handed to `RunString`, at the engine boundary. -/
inductive Source
  | lit (v : JSValue)
  | ident (name : String)
  | assign (name : String) (v : JSValue)
  | promiseSrc (settleTicks : Nat) (out : PromiseOutcome)
  | malformed (stmts : List (String × JSValue)) (diag : String)
deriving DecidableEq

/-- Engine-level failures of `vm.RunString` (the `err` of
`run-source(text) → (value, error)`). -/
inductive EngineErr
  | parseErr (diag : String)
  | runtimeErr (diag : String)
  | referenceErr (name : String)
deriving DecidableEq

/-- The engine diagnostic text carried by an engine failure. -/
def EngineErr.message : EngineErr → String
  | .parseErr d => "SyntaxError: " ++ d
  | .runtimeErr d => d
  | .referenceErr n => "ReferenceError: " ++ n ++ " is not defined"

/-- `vm.RunString` at the engine boundary: returns the evaluated value and
the (possibly mutated) global state.  A parse failure executes nothing, so
the state comes back unchanged even when the malformed text contains
assignments.  A `promiseSrc` evaluates to a promise object; the object
itself is opaque to `RunString` callers (the wrapper only ever probes it
for a callable `then`, modelled separately by `thenableOf`). -/
def RunString (vm : VMMap) : Source → Except EngineErr JSValue × VMMap
  | .lit v => (.ok v, vm)
  | .ident n =>
    match vm n with
    | some v => (.ok v, vm)
    | none => (.error (.referenceErr n), vm)
  | .assign n v => (.ok v, updateVM vm n v)
  | .promiseSrc _ _ => (.ok .undefined, vm)
  | .malformed _ d => (.error (.parseErr d), vm)

/-- The wrapper's promise-likeness probe: `AwaitPromise`'s wrapped code
tests `__promise && typeof __promise.then === 'function'`.  In the source
grammar exactly the `promiseSrc` texts evaluate to a value with a callable
`then`; everything else is not promise-like. -/
def thenableOf : Source → Option (Nat × PromiseOutcome)
  | .promiseSrc k out => some (k, out)
  | _ => none

/-! ## Go-side errors produced by the wrapper

One constructor per `fmt.Errorf` site in the code that a claim touches;
`message` renders each exactly as the format string at that site does
(the duration in the timeout message is rendered as its nanosecond
count, since no claim depends on Go duration pretty-printing). -/

/-- `fmt.Sprintf("%v", x)` on an exported (Go-side) value, as used when the
rejection reason is interpolated into the error message.  `none` is the
nil interface, which `%v` renders as the angle-bracketed nil marker. -/
def goFmtV : Option GoValue → String
  | none => "<nil>"
  | some (.str s) => s
  | some (.int n) => toString n
  | some (.float q) => toString q
  | some (.bool b) => if b then ("true") else ("false")
  | some (.fn tag) => tag

/-- Errors returned by the wrapper to host callers, one constructor per
construction site relevant to the claims. -/
inductive GoError
  | wrapped (ctx : String) (cause : EngineErr)
  | engine (cause : EngineErr)
  | rejection (reasonText : String)
  | timedOutAfter (ns : Nat)
  | resource (msg : String)
deriving DecidableEq

/-- The Go error message, following each `fmt.Errorf` format string. -/
def GoError.message : GoError → String
  | .wrapped ctx cause => ctx ++ ": " ++ cause.message
  | .engine cause => cause.message
  | .rejection t => "promise rejected: " ++ t
  | .timedOutAfter n => "execution timed out after " ++ toString n
  | .resource m => "failed to read script file: " ++ m

/-- ParseError-class failure (spec §7 taxonomy): the underlying engine
error is a parse diagnostic. -/
def isParseErrorClass : GoError → Bool
  | .wrapped _ (.parseErr _) => true
  | .engine (.parseErr _) => true
  | _ => false

/-- RejectionError-class failure: carries an awaited promise's rejection
reason. -/
def isRejectionErrorClass : GoError → Bool
  | .rejection _ => true
  | _ => false

/-- TimeoutError-class failure: the bounded async pump exceeded its
deadline. -/
def isTimeoutErrorClass : GoError → Bool
  | .timedOutAfter _ => true
  | _ => false

/-! ## The synchronous Session (`Runner`) -/

/-- `Runner`: one engine instance plus the registry of host-set globals.
The web-access fields are irrelevant to the synchronous claims and are
omitted here (the event-loop runner models them). -/
structure Runner where
  globals : GlobalReg
  vm : VMMap

/-- A fresh runner (`New()`): empty registry, fresh VM. -/
def Runner.new : Runner :=
  { globals := emptyReg, vm := emptyVM }

/-- `(*Runner).SetGlobal`: records in the registry and immediately binds
into the live VM. -/
def Runner.SetGlobal (r : Runner) (name : String) (v : GoValue) : Runner :=
  { globals := updateReg r.globals name v
    vm := updateVM r.vm name (marshal v) }

/-- `(*Runner).LoadScriptString`: runs the code; on engine failure wraps it
as `failed to execute script: %w`. -/
def Runner.LoadScriptString (r : Runner) (code : Source) : Except GoError Unit × Runner :=
  match RunString r.vm code with
  | (.ok _, vm2) => (.ok (), { r with vm := vm2 })
  | (.error e, vm2) => (.error (.wrapped ("failed to execute script") e), { r with vm := vm2 })

/-- `(*Runner).LoadScript`: reads the file, then behaves as
`LoadScriptString` (same wrap message).  The read is the host I/O
boundary, passed in as its result. -/
def Runner.LoadScript (r : Runner) (readResult : Except String Source) :
    Except GoError Unit × Runner :=
  match readResult with
  | .error m => (.error (.resource m), r)
  | .ok code =>
    match RunString r.vm code with
    | (.ok _, vm2) => (.ok (), { r with vm := vm2 })
    | (.error e, vm2) => (.error (.wrapped ("failed to execute script") e), { r with vm := vm2 })

/-- `(*Runner).Eval`: runs the expression; on engine failure wraps it as
`failed to evaluate expression: %w`. -/
def Runner.Eval (r : Runner) (expression : Source) : Except GoError JSValue × Runner :=
  match RunString r.vm expression with
  | (.ok v, vm2) => (.ok v, { r with vm := vm2 })
  | (.error e, vm2) => (.error (.wrapped ("failed to evaluate expression") e), { r with vm := vm2 })

/-! ## The event-loop bridge (`EventLoopRunner`)

The goja_nodejs loop is an external collaborator; the spec (§5, §6)
fixes its boundary: a single worker runs all submitted closures, aux
jobs run in FIFO submission order, timers fire by increasing fire time
with ties broken by submission order, `StopNoWait` discards pending
work.  `RunOnLoop` on a loop that is not running merely queues the
closure — it never executes it and reports nothing — so a caller
blocking on a channel the closure would close blocks indefinitely. -/

/-- The loop's lifecycle states (spec §4.3 state machine). -/
inductive LoopState
  | created
  | running
  | draining
  | stopped
  | aborted
deriving DecidableEq

/-- `loop.StopNoWait()`: immediate discard of pending work; the loop is
terminal afterward. -/
def StopNoWaitL : LoopState → LoopState := fun _ => .aborted

/-- `EventLoopRunner`: the loop plus the read/write-locked registry of
host-set globals and the optional web-access (fetch helpers) feature.
The lock itself is a concurrency artifact with no functional content
here; the registry snapshot it guards is what the model carries. -/
structure ELRunner where
  globals : GlobalReg
  webAccessEnabled : Bool

/-- A fresh event-loop runner (`NewEventLoopRunner()` without options). -/
def ELRunner.new : ELRunner :=
  { globals := emptyReg, webAccessEnabled := false }

/-- `(*EventLoopRunner).SetGlobal`: records into the registry under the
write lock; the live VM is untouched until the next closure boundary. -/
def ELRunner.SetGlobal (r : ELRunner) (name : String) (v : GoValue) : ELRunner :=
  { r with globals := updateReg r.globals name v }

/-- The global-binding half of `setupVM`: `for name, value := range
r.globals { vm.Set(name, value) }`.  Go maps have unique keys, so the
iteration denotes a pointwise overlay of the registry onto the VM. -/
def bindGlobals (r : ELRunner) (vm : VMMap) : VMMap :=
  fun n =>
    match r.globals n with
    | some v => some (marshal v)
    | none => vm n

/-- `(*EventLoopRunner).installFetchGlobals`: binds the two fetch helper
callables, overwriting whatever those names held. -/
def installFetchGlobals (vm : VMMap) : VMMap :=
  updateVM (updateVM vm ("fetchText") (.fn ("fetchText"))) ("fetchJSON") (.fn ("fetchJSON"))

/-- `(*EventLoopRunner).setupVM`: re-binds every registry entry into the
VM (in the code, under the read lock), then installs the fetch helpers
when web access is enabled. -/
def ELRunner.setupVM (r : ELRunner) (vm : VMMap) : VMMap :=
  let vm2 := bindGlobals r vm
  if r.webAccessEnabled then installFetchGlobals vm2 else vm2

/-- The closure wrapping shared by every submission path: the user
closure runs against the VM after `setupVM` has been applied. -/
def wrapJob (r : ELRunner) (fn : VMMap → VMMap) : VMMap → VMMap :=
  fun vm => fn (r.setupVM vm)

/-- `(*EventLoopRunner).Run`: submits `setupVM`-then-`fn` via `loop.Run`. -/
def ELRunner.RunClosure (r : ELRunner) (fn : VMMap → VMMap) : VMMap → VMMap :=
  wrapJob r fn

/-- `(*EventLoopRunner).RunOnLoop`: submits `setupVM`-then-`fn` via
`loop.RunOnLoop`. -/
def ELRunner.RunOnLoop (r : ELRunner) (fn : VMMap → VMMap) : VMMap → VMMap :=
  wrapJob r fn

/-- `(*EventLoopRunner).SetTimeout`: submits `setupVM`-then-`fn` with the
delay passed through unchanged to `loop.SetTimeout`. -/
def ELRunner.SetTimeoutJob (r : ELRunner) (fn : VMMap → VMMap) (delay : Nat) :
    (VMMap → VMMap) × Nat :=
  (wrapJob r fn, delay)

/-- `(*EventLoopRunner).SetInterval`: submits `setupVM`-then-`fn` with the
period passed through unchanged to `loop.SetInterval`. -/
def ELRunner.SetIntervalJob (r : ELRunner) (fn : VMMap → VMMap) (period : Nat) :
    (VMMap → VMMap) × Nat :=
  (wrapJob r fn, period)

/-- `(*EventLoopRunner).RunAsync`: inside `loop.Run`, applies `setupVM`
and then runs the code, returning the pump's value and error. -/
def ELRunner.RunAsync (r : ELRunner) (vm : VMMap) (code : Source) :
    Except EngineErr JSValue × VMMap :=
  RunString (r.setupVM vm) code

/-- Which arm of `RunAsyncWithTimeout`'s `select` fires first: the pump's
`done` channel or the wall-clock timer.  Go's `select` commits to exactly
one ready case, so the race resolves to a single winner. -/
inductive RaceWinner
  | pumpCompleted
  | timerFired
deriving DecidableEq

/-- `(*EventLoopRunner).RunAsyncWithTimeout`: races the pump against
`time.After(timeout)`.  Pump first: its value and error are returned and
the loop is untouched.  Timer first: `loop.StopNoWait()` aborts the loop
and a timeout error is returned with a nil value. -/
def ELRunner.RunAsyncWithTimeout (r : ELRunner) (ls : LoopState) (vm : VMMap)
    (code : Source) (timeout : Nat) (w : RaceWinner) :
    (Option JSValue × Option GoError) × LoopState :=
  match w with
  | .pumpCompleted =>
    match r.RunAsync vm code with
    | (.ok v, _) => ((some v, none), ls)
    | (.error e, _) => ((none, some (.engine e)), ls)
  | .timerFired => ((none, some (.timedOutAfter timeout)), StopNoWaitL ls)

/-! ## AwaitPromise

`AwaitPromise` submits one closure via `RunOnLoop` that evaluates the
wrapped code into a `__result` record `{value, error, done}`, then polls
that record with check closures re-submitted each tick until `done`.
The awaiting host thread blocks on a channel the final check closes.
The model below follows the code line by line: the initial run, the
per-tick polling (a settling promise flips `done` after its settle
tick), and the finish branch that distinguishes rejection from
fulfillment by testing the recorded error against undefined and null. -/

/-- The `__result` record of the wrapped code. -/
structure AwaitState where
  value : JSValue
  error : JSValue
  done : Bool
deriving DecidableEq

/-- The continuation handlers attached by the wrapped code: fulfillment
records the value, rejection records the reason, either flips `done`. -/
def settleState : PromiseOutcome → AwaitState
  | .fulfill v => { value := v, error := .undefined, done := true }
  | .reject reason => { value := .undefined, error := reason, done := true }

/-- The `done` branch of `checkResult`: when the recorded error is
neither undefined nor null, the await fails with the rejection error
(`fmt.Errorf("promise rejected: %v", errorVal.Export())`) and a nil
value; otherwise the recorded value is exported and returned with no
error. -/
def finishCheck (st : AwaitState) : Option GoValue × Option GoError :=
  if st.error ≠ JSValue.undefined ∧ st.error ≠ JSValue.null then
    (none, some (.rejection (goFmtV (exportJS st.error))))
  else
    (exportJS st.value, none)

/-- The observable outcome of an `AwaitPromise` call.  `blocked` is the
call that never returns (the completion channel is never closed).
`outcome` carries the returned value and error, the number of check
closures the polling ran (1 when the value was already settled), and the
number of loop timers the call created (`AwaitPromise` never calls
`SetTimeout`; its re-checks are aux jobs). -/
inductive AwaitOutcome
  | blocked
  | outcome (value : Option GoValue) (err : Option GoError)
      (checkTicks : Nat) (timersCreated : Nat)
deriving DecidableEq

/-- `(*EventLoopRunner).AwaitPromise` end to end.  `loopRunning` is the
loop's processing state when the call is made: when the loop is not
running, the `RunOnLoop` submission is queued but never executed and the
call blocks on `<-done` forever.  When the loop runs the closure, the
wrapped code is evaluated against the `setupVM`-refreshed VM; an engine
failure is returned raw (`promiseErr = err`); a promise-like value is
polled until its continuations settle the record; any other value is
already done and the first check returns it. -/
def ELRunner.AwaitPromise (r : ELRunner) (loopRunning : Bool) (vm : VMMap)
    (code : Source) : AwaitOutcome :=
  if loopRunning = false then .blocked
  else
    match (RunString (r.setupVM vm) code).1, thenableOf code with
    | .error e, _ => .outcome none (some (.engine e)) 0 0
    | .ok _, some (k, out) =>
      let fin := finishCheck (settleState out)
      .outcome fin.1 fin.2 (k + 1) 0
    | .ok v, none =>
      let fin := finishCheck { value := v, error := .undefined, done := true }
      .outcome fin.1 fin.2 1 0

/-- Whether an await outcome returned an error to the caller. -/
def AwaitOutcome.returnedError : AwaitOutcome → Bool
  | .outcome _ (some _) _ _ => true
  | _ => false

/-! ## Timer ordering at the loop boundary

Timers are owned by the goja_nodejs loop; the spec (§5, §6) fixes their
contract: firing order is by absolute fire time, ties broken by
submission order.  With all three submissions at the same instant (as in
the multi-timeout test), fire time reduces to the delay. -/

/-- One scheduled timer: its submission index (0, 1, 2, … in submission
order), its delay, and the tag its callback appends when it fires. -/
structure TimerReq where
  submit : Nat
  delay : Nat
  tag : Nat
deriving DecidableEq

/-- Fires-no-later-than: earlier fire time first, ties by submission
order. -/
def timerLE (a b : TimerReq) : Prop :=
  a.delay < b.delay ∨ (a.delay = b.delay ∧ a.submit ≤ b.submit)

instance : DecidableRel timerLE := fun a b =>
  inferInstanceAs (Decidable (_ ∨ _))

instance : IsTotal TimerReq timerLE :=
  ⟨by intro a b; unfold timerLE; omega⟩

instance : IsTrans TimerReq timerLE :=
  ⟨by intro a b c; unfold timerLE; omega⟩

/-- The order in which the loop fires a batch of timers submitted at the
same instant. -/
def fireOrder (ts : List TimerReq) : List TimerReq :=
  List.insertionSort timerLE ts

/-- The sequence of tags observed as the fired callbacks append. -/
def observedTags (ts : List TimerReq) : List Nat :=
  (fireOrder ts).map (fun t => t.tag)

/-- The three timers of the multi-timeout scenario: submitted in the
order 150, 50, 100 (delays), appending 3, 1, 2 respectively. -/
def multiTimeoutScenario : List TimerReq :=
  [⟨0, 150, 3⟩, ⟨1, 50, 1⟩, ⟨2, 100, 2⟩]

/-! ## Argument quoting in `(*Runner).Call`

`Call` builds the invocation expression textually; a string argument is
interpolated as `fmt.Sprintf("%q", v)`, i.e. Go's `strconv.Quote`.  The
quoted text is then read back by goja's lexer as a JavaScript string
literal.  We model both sides over ASCII code points (`Nat < 128`),
where `strconv.Quote` is exactly specified: printable ASCII other than
the quote and the backslash passes through; quote and backslash get a
backslash escape; the control characters BEL, BS, TAB, LF, VT, FF, CR
get their Go single-letter escapes; every other byte gets a two-digit
lowercase `\xHH` escape. -/

/-- Lowercase hex digit character for a value below 16. -/
def hexChar (d : Nat) : Nat :=
  if d < 10 then 48 + d else 87 + d

/-- Numeric value of a hex digit character (either case), if it is one. -/
def hexDigit (c : Nat) : Option Nat :=
  if 48 ≤ c ∧ c ≤ 57 then some (c - 48)
  else if 97 ≤ c ∧ c ≤ 102 then some (c - 87)
  else if 65 ≤ c ∧ c ≤ 70 then some (c - 55)
  else none

/-- `strconv.Quote` on one ASCII code point (the body of the literal,
without the surrounding quotes). -/
def goQuoteChar (c : Nat) : List Nat :=
  if c = 34 then [92, 34]
  else if c = 92 then [92, 92]
  else if 32 ≤ c ∧ c ≤ 126 then [c]
  else if c = 7 then [92, 97]
  else if c = 8 then [92, 98]
  else if c = 12 then [92, 102]
  else if c = 10 then [92, 110]
  else if c = 13 then [92, 114]
  else if c = 9 then [92, 116]
  else if c = 11 then [92, 118]
  else [92, 120, hexChar (c / 16), hexChar (c % 16)]

/-- `fmt.Sprintf("%q", s)`: the full double-quoted Go string literal for
an ASCII string, as `Call` interpolates a string argument. -/
def goQuote (s : List Nat) : List Nat :=
  [34] ++ (s.map goQuoteChar).flatten ++ [34]

/-- JavaScript's single-character escapes (`\b \f \n \r \t \v \0`). -/
def jsEscChar (c : Nat) : Option Nat :=
  if c = 98 then some 8
  else if c = 102 then some 12
  else if c = 110 then some 10
  else if c = 114 then some 13
  else if c = 116 then some 9
  else if c = 118 then some 11
  else if c = 48 then some 0
  else none

/-- One step of the JavaScript string-literal lexer. -/
inductive LexStep
  | close (rest : List Nat)
  | emit (v : Nat) (rest : List Nat)
  | skip (rest : List Nat)
  | failStep
deriving DecidableEq

/-- One unit of a JavaScript double-quoted string-literal body, as the
engine's lexer reads it: the closing quote ends the literal; a bare line
terminator is a syntax error; a backslash introduces an escape (`\xHH`
and `\uHHHH` hex escapes, the single-character escapes, line
continuations, and the NonEscapeCharacter rule by which any other
escaped character stands for itself); any other character stands for
itself. -/
def jsLexStep (input : List Nat) : LexStep :=
  match input with
  | [] => .failStep
  | c :: rest =>
    if c = 34 then .close rest
    else if c = 10 ∨ c = 13 then .failStep
    else if c = 92 then
      match rest with
      | [] => .failStep
      | e :: rest2 =>
        if e = 120 then
          match rest2 with
          | h1 :: h2 :: rest3 =>
            match hexDigit h1, hexDigit h2 with
            | some a, some b => .emit (16 * a + b) rest3
            | _, _ => .failStep
          | _ => .failStep
        else if e = 117 then
          match rest2 with
          | h1 :: h2 :: h3 :: h4 :: rest3 =>
            match hexDigit h1, hexDigit h2, hexDigit h3, hexDigit h4 with
            | some a, some b, some c2, some d =>
              .emit (4096 * a + 256 * b + 16 * c2 + d) rest3
            | _, _, _, _ => .failStep
          | _ => .failStep
        else if e = 10 ∨ e = 13 then .skip rest2
        else
          match jsEscChar e with
          | some v => .emit v rest2
          | none => .emit e rest2
    else .emit c rest

/-- The lexer's body loop, iterated with explicit fuel (every step
consumes at least one input character, so fuel equal to the input length
is always enough). -/
def jsLexBodyAux : Nat → List Nat → List Nat → Option (List Nat × List Nat)
  | 0, _, _ => none
  | fuel + 1, acc, input =>
    match jsLexStep input with
    | .close rest => some (acc.reverse, rest)
    | .emit v rest => jsLexBodyAux fuel (v :: acc) rest
    | .skip rest => jsLexBodyAux fuel acc rest
    | .failStep => none

/-- A JavaScript double-quoted string literal at the head of the input:
the opening quote, a body, the closing quote.  Returns the decoded
string value and the remaining input. -/
def jsStringLiteral (input : List Nat) : Option (List Nat × List Nat) :=
  match input with
  | [] => none
  | c :: rest => if c = 34 then jsLexBodyAux rest.length [] rest else none

/-- The value JavaScript reads back from Go's quoting of one ASCII code
point: every character round-trips except BEL (7), which Go writes as
the escape `\a` — not an escape JavaScript knows, so its lexer reads the
letter `a` (97). -/
def decodedChar (c : Nat) : Nat :=
  if c = 7 then 97 else c

/-- The argument slot `Call` builds for a string argument
(`jsArgs += fmt.Sprintf("%q", v)`). -/
def formatStringArg (s : List Nat) : List Nat :=
  goQuote s

/-- Reading back a hex digit character written by `hexChar` recovers the
digit. -/
theorem hexDigit_hexChar : ∀ d < 16, hexDigit (hexChar d) = some d := by
  decide

/-- One quoted character consumed by the JavaScript lexer: the lexer
steps over exactly the escape `strconv.Quote` wrote for `c` and records
`decodedChar c`. -/
theorem jsLexStep_goQuoteChar (c : Nat) (hc : c < 128) (t : List Nat) :
    jsLexStep (goQuoteChar c ++ t) = .emit (decodedChar c) t := by
  interval_cases c <;> rfl

/-- The lexer's body loop keeps any success when given more fuel. -/
theorem jsLexBodyAux_mono : ∀ fuel fuel2 acc input r, fuel ≤ fuel2 →
    jsLexBodyAux fuel acc input = some r → jsLexBodyAux fuel2 acc input = some r := by
  intro fuel
  induction fuel with
  | zero => intro fuel2 acc input r _ h; exact absurd h (by simp [jsLexBodyAux])
  | succ fuel ih =>
    intro fuel2 acc input r hle h
    obtain ⟨fuel3, rfl⟩ : ∃ fuel3, fuel2 = fuel3 + 1 := ⟨fuel2 - 1, by omega⟩
    rw [jsLexBodyAux] at h ⊢
    cases hstep : jsLexStep input with
    | close rest => rw [hstep] at h; exact h
    | emit v rest => rw [hstep] at h; exact ih fuel3 _ _ _ (by omega) h
    | skip rest => rw [hstep] at h; exact ih fuel3 _ _ _ (by omega) h
    | failStep => rw [hstep] at h; exact absurd h (by simp)

/-- The body loop over the full quoted text: with one unit of fuel per
source character plus one for the closing quote, it consumes the quoted
characters and the closing quote and leaves exactly the trailing text. -/
theorem jsLexBodyAux_goQuote (s : List Nat) (h : ∀ c ∈ s, c < 128) (acc t : List Nat) :
    jsLexBodyAux (s.length + 1) acc ((s.map goQuoteChar).flatten ++ 34 :: t)
      = some (acc.reverse ++ s.map decodedChar, t) := by
  induction s generalizing acc with
  | nil => simp [jsLexBodyAux, jsLexStep]
  | cons c s2 ih =>
    have hc : c < 128 := h c (by simp)
    rw [List.map_cons, List.flatten_cons, List.append_assoc, List.length_cons]
    rw [jsLexBodyAux, jsLexStep_goQuoteChar c hc]
    show jsLexBodyAux (s2.length + 1) (decodedChar c :: acc)
        ((s2.map goQuoteChar).flatten ++ 34 :: t)
      = some (acc.reverse ++ (c :: s2).map decodedChar, t)
    rw [ih (fun x hx => h x (by simp [hx])) (decodedChar c :: acc)]
    simp

set_option maxHeartbeats 1600000 in
/-- Every Go quoting of a character is nonempty. -/
theorem goQuoteChar_length (c : Nat) : 1 ≤ (goQuoteChar c).length := by
  unfold goQuoteChar
  split_ifs <;> simp

/-- The quoted body is at least as long as the source string. -/
theorem goQuote_body_length (s : List Nat) :
    s.length ≤ ((s.map goQuoteChar).flatten).length := by
  induction s with
  | nil => simp
  | cons c s2 ih =>
    rw [List.map_cons, List.flatten_cons, List.length_append, List.length_cons]
    have := goQuoteChar_length c
    omega

/-- `jsStringLiteral` on input starting with the opening quote runs the
body loop with fuel equal to the remaining length. -/
theorem jsStringLiteral_cons (rest : List Nat) :
    jsStringLiteral (34 :: rest) = jsLexBodyAux rest.length [] rest := rfl

/-- The quoted argument interpolated into a built call expression always
reads back as exactly one complete JavaScript string literal: nothing in
`s` can close the literal early or extend it, and whatever text follows
the interpolated slot stays outside the literal. -/
theorem jsStringLiteral_goQuote (s : List Nat) (h : ∀ c ∈ s, c < 128) (t : List Nat) :
    jsStringLiteral (goQuote s ++ t) = some (s.map decodedChar, t) := by
  have hshape : goQuote s ++ t = 34 :: ((s.map goQuoteChar).flatten ++ 34 :: t) := by
    simp [goQuote]
  rw [hshape, jsStringLiteral_cons]
  refine jsLexBodyAux_mono (s.length + 1) _ _ _ _ ?_ ?_
  · rw [List.length_append, List.length_cons]
    have := goQuote_body_length s
    omega
  · simpa using jsLexBodyAux_goQuote s h [] t

/-- With the BEL character absent, decoding is the identity. -/
theorem map_decodedChar_eq (s : List Nat) (h : 7 ∉ s) : s.map decodedChar = s := by
  induction s with
  | nil => rfl
  | cons c s2 ih =>
    rw [List.map_cons, ih (fun hx => h (by simp [hx]))]
    rw [decodedChar, if_neg (fun hc => h (by simp [hc]))]

/-! ## Claim theorems -/

/-- C1, counterexample: a promise that rejects with the JavaScript value
`null` does not produce a RejectionError.  The done-branch of
`checkResult` treats a recorded error of `null` (or `undefined`) as
fulfillment, so `AwaitPromise` returns `(nil, nil)`: nil value, nil
error, contradicting the claim's quantification over every rejection
reason. -/
theorem C1_counterexample :
    ELRunner.new.AwaitPromise true emptyVM
        (Source.promiseSrc 1 (PromiseOutcome.reject JSValue.null))
      = AwaitOutcome.outcome none none 2 0
    ∧ (ELRunner.new.AwaitPromise true emptyVM
        (Source.promiseSrc 1 (PromiseOutcome.reject JSValue.null))).returnedError
      = false := by
  constructor <;> rfl

/-- C1, amended: for every rejection reason other than JavaScript `null`
and `undefined`, `AwaitPromise` on a rejecting promise returns a nil
value together with a RejectionError whose message is
`promise rejected: ` followed by the exported reason, and that message
contains the rendered reason as a substring (e.g. rejecting with
`"boom"` yields a message containing `boom`).  Reasons equal to `null`
or `undefined` are misreported as fulfillment (see the
counterexample). -/
theorem C1_theorem (r : ELRunner) (vm : VMMap) (k : Nat) (reason : JSValue)
    (h1 : reason ≠ JSValue.null) (h2 : reason ≠ JSValue.undefined) :
    r.AwaitPromise true vm (Source.promiseSrc k (PromiseOutcome.reject reason))
      = AwaitOutcome.outcome none
          (some (GoError.rejection (goFmtV (exportJS reason)))) (k + 1) 0
    ∧ (goFmtV (exportJS reason)).data <:+:
        (GoError.rejection (goFmtV (exportJS reason))).message.data := by
  constructor
  · unfold ELRunner.AwaitPromise
    rw [if_neg (by simp)]
    show AwaitOutcome.outcome (finishCheck (settleState (PromiseOutcome.reject reason))).1
        (finishCheck (settleState (PromiseOutcome.reject reason))).2 (k + 1) 0 = _
    rw [settleState, finishCheck, if_pos (And.intro h2 h1)]
  · exact ⟨("promise rejected: ").data, [], by simp [GoError.message]⟩

/-- C1, witness: rejecting with the string `boom` yields a nil value and
the rejection error whose message contains `boom`. -/
theorem C1_witness :
    JSValue.str ("boom") ≠ JSValue.null
    ∧ JSValue.str ("boom") ≠ JSValue.undefined
    ∧ (ELRunner.new.AwaitPromise true emptyVM
        (Source.promiseSrc 1 (PromiseOutcome.reject (JSValue.str ("boom"))))
      = AwaitOutcome.outcome none
          (some (GoError.rejection (goFmtV (exportJS (JSValue.str ("boom")))))) 2 0
    ∧ (goFmtV (exportJS (JSValue.str ("boom")))).data <:+:
        (GoError.rejection (goFmtV (exportJS (JSValue.str ("boom"))))).message.data) :=
  ⟨by decide, by decide,
    C1_theorem ELRunner.new emptyVM 1 (JSValue.str ("boom")) (by decide) (by decide)⟩

/-- C2, counterexample: the BEL character (code point 7) is not received
exactly.  Go quotes it as the escape `\a`, which the JavaScript lexer
reads under the NonEscapeCharacter rule as the letter `a` (97), so the
called function receives a different string than the caller passed. -/
theorem C2_counterexample :
    jsStringLiteral (formatStringArg [7]) = some ([97], [])
    ∧ [97] ≠ [7] := by
  constructor
  · rfl
  · decide

/-- C2, amended: for every ASCII string argument, the slot
`fmt.Sprintf("%q", v)` builds always reads back as exactly one complete
JavaScript string literal — quote characters, backslashes and newlines
in the argument are escaped, the literal cannot be closed early, and the
rest of the built expression stays outside the literal, so argument
content cannot inject code.  The function receives exactly the original
string whenever the argument avoids the BEL character, whose Go escape
`\a` JavaScript does not recognise (see the counterexample). -/
theorem C2_theorem (s t : List Nat) (hascii : ∀ c ∈ s, c < 128) :
    jsStringLiteral (formatStringArg s ++ t) = some (s.map decodedChar, t)
    ∧ (7 ∉ s → s.map decodedChar = s) := by
  constructor
  · exact jsStringLiteral_goQuote s hascii t
  · intro h7
    exact map_decodedChar_eq s h7

/-- C2, witness: a string containing a quote, a backslash and a newline
is quoted into a single complete literal and received exactly; the
trailing text (a closing parenthesis) stays outside the literal. -/
theorem C2_witness :
    (∀ c ∈ [34, 92, 10, 104, 105], c < 128)
    ∧ (jsStringLiteral (formatStringArg [34, 92, 10, 104, 105] ++ [41])
        = some (List.map decodedChar [34, 92, 10, 104, 105], [41])
    ∧ (7 ∉ [34, 92, 10, 104, 105] →
        List.map decodedChar [34, 92, 10, 104, 105] = [34, 92, 10, 104, 105])) :=
  ⟨by decide, C2_theorem [34, 92, 10, 104, 105] [41] (by decide)⟩

/-- C3, counterexample: `AwaitPromise` on a bridge whose loop is not
running does not fail with any error: the submitted closure is only
queued and `<-done` blocks forever, so the call returns nothing at
all — in particular no UsageError (the code defines no such error and
performs no state check). -/
theorem C3_counterexample :
    ELRunner.new.AwaitPromise false emptyVM (Source.lit (JSValue.int 42))
      = AwaitOutcome.blocked
    ∧ (ELRunner.new.AwaitPromise false emptyVM
        (Source.lit (JSValue.int 42))).returnedError = false := by
  constructor <;> rfl

/-- C3, amended: calling `AwaitPromise` when the bridge is not Running
(before `Start` or after `Stop`) is unsupported, but the implementation
neither checks the state nor returns a UsageError: for every runner,
VM state and source text, the call submits its closure to a loop that
never runs it and blocks indefinitely, without executing the source. -/
theorem C3_theorem (r : ELRunner) (vm : VMMap) (code : Source) :
    r.AwaitPromise false vm code = AwaitOutcome.blocked := by
  rfl

/-- C4: a source text whose evaluated value is not promise-like (no
callable `then`) is treated as already resolved: `AwaitPromise` returns
the exported value with no error on the very first check tick and
creates no timer. -/
theorem C4_theorem (r : ELRunner) (vm : VMMap) (code : Source) (v : JSValue)
    (hnp : thenableOf code = none)
    (hok : (RunString (r.setupVM vm) code).1 = Except.ok v) :
    r.AwaitPromise true vm code = AwaitOutcome.outcome (exportJS v) none 1 0 := by
  unfold ELRunner.AwaitPromise
  rw [if_neg (by simp), hok, hnp]
  show AwaitOutcome.outcome
      (finishCheck { value := v, error := JSValue.undefined, done := true }).1
      (finishCheck { value := v, error := JSValue.undefined, done := true }).2 1 0 = _
  rw [finishCheck, if_neg (by simp)]

/-- C4, witness: `AwaitPromise` on the bare expression `42` returns the
number 42 immediately (first check tick), with no error and no timer. -/
theorem C4_witness :
    thenableOf (Source.lit (JSValue.int 42)) = none
    ∧ (RunString (ELRunner.new.setupVM emptyVM) (Source.lit (JSValue.int 42))).1
        = Except.ok (JSValue.int 42)
    ∧ ELRunner.new.AwaitPromise true emptyVM (Source.lit (JSValue.int 42))
        = AwaitOutcome.outcome (some (GoValue.int 42)) none 1 0 :=
  ⟨rfl, rfl, C4_theorem ELRunner.new emptyVM (Source.lit (JSValue.int 42))
    (JSValue.int 42) rfl rfl⟩

/-- C5: for every malformed source text — whatever global mutations its
unparsable body would have performed — `LoadScriptString`, `LoadScript`
(with the file read succeeding) and `Eval` return a ParseError-class
failure wrapping the engine's diagnostic, and the runner's state (the
registry and the VM's global bindings) comes back exactly unchanged: no
mutation from the broken script is applied. -/
theorem C5_theorem (r : Runner) (stmts : List (String × JSValue)) (diag : String) :
    r.LoadScriptString (Source.malformed stmts diag)
      = (Except.error (GoError.wrapped ("failed to execute script")
          (EngineErr.parseErr diag)), r)
    ∧ r.LoadScript (Except.ok (Source.malformed stmts diag))
      = (Except.error (GoError.wrapped ("failed to execute script")
          (EngineErr.parseErr diag)), r)
    ∧ r.Eval (Source.malformed stmts diag)
      = (Except.error (GoError.wrapped ("failed to evaluate expression")
          (EngineErr.parseErr diag)), r)
    ∧ isParseErrorClass (GoError.wrapped ("failed to execute script")
        (EngineErr.parseErr diag)) = true
    ∧ isParseErrorClass (GoError.wrapped ("failed to evaluate expression")
        (EngineErr.parseErr diag)) = true := by
  refine ⟨?_, ?_, ?_, rfl, rfl⟩ <;> rfl

/-- C6: `RunAsyncWithTimeout` resolves its race deterministically into
exactly one of two outcomes.  If the pump's completion wins, the
executed code's value and error are returned unchanged and the loop is
left alone; if the wall-clock timer wins, the loop is force-aborted via
the immediate-discard path (`StopNoWait`, leaving the loop Aborted) and
a TimeoutError-class error is returned with a nil value.  The outcome is
a function of which event fires first, so there is no double return. -/
theorem C6_theorem (r : ELRunner) (ls : LoopState) (vm : VMMap) (code : Source)
    (timeout : Nat) (v : JSValue) (e : EngineErr) :
    (r.RunAsyncWithTimeout ls vm code timeout RaceWinner.timerFired
        = ((none, some (GoError.timedOutAfter timeout)), StopNoWaitL ls)
      ∧ StopNoWaitL ls = LoopState.aborted
      ∧ isTimeoutErrorClass (GoError.timedOutAfter timeout) = true)
    ∧ ((r.RunAsync vm code).1 = Except.ok v →
        r.RunAsyncWithTimeout ls vm code timeout RaceWinner.pumpCompleted
          = ((some v, none), ls))
    ∧ ((r.RunAsync vm code).1 = Except.error e →
        r.RunAsyncWithTimeout ls vm code timeout RaceWinner.pumpCompleted
          = ((none, some (GoError.engine e)), ls)) := by
  refine ⟨⟨rfl, rfl, rfl⟩, ?_, ?_⟩
  · intro hok
    unfold ELRunner.RunAsyncWithTimeout
    rcases hrun : r.RunAsync vm code with ⟨res, vm2⟩
    rw [hrun] at hok
    simp only at hok
    rw [hok]
  · intro herr
    unfold ELRunner.RunAsyncWithTimeout
    rcases hrun : r.RunAsync vm code with ⟨res, vm2⟩
    rw [hrun] at herr
    simp only at herr
    rw [herr]

/-- C6, witness: running the literal `1` with the pump winning returns
value 1 with no error; the timer winning aborts the loop and returns the
timeout error. -/
theorem C6_witness :
    (ELRunner.new.RunAsyncWithTimeout LoopState.running emptyVM
        (Source.lit (JSValue.int 1)) 5 RaceWinner.timerFired
        = ((none, some (GoError.timedOutAfter 5)), StopNoWaitL LoopState.running)
      ∧ StopNoWaitL LoopState.running = LoopState.aborted
      ∧ isTimeoutErrorClass (GoError.timedOutAfter 5) = true)
    ∧ ((ELRunner.new.RunAsync emptyVM (Source.lit (JSValue.int 1))).1
          = Except.ok (JSValue.int 1) →
        ELRunner.new.RunAsyncWithTimeout LoopState.running emptyVM
          (Source.lit (JSValue.int 1)) 5 RaceWinner.pumpCompleted
          = ((some (JSValue.int 1), none), LoopState.running))
    ∧ ((ELRunner.new.RunAsync emptyVM (Source.lit (JSValue.int 1))).1
          = Except.error (EngineErr.parseErr ("x")) →
        ELRunner.new.RunAsyncWithTimeout LoopState.running emptyVM
          (Source.lit (JSValue.int 1)) 5 RaceWinner.pumpCompleted
          = ((none, some (GoError.engine (EngineErr.parseErr ("x")))),
              LoopState.running)) :=
  C6_theorem ELRunner.new LoopState.running emptyVM (Source.lit (JSValue.int 1)) 5
    (JSValue.int 1) (EngineErr.parseErr ("x"))

/-- C7: every export helper is total on the nil (absent-value)
reference: `ExportString(nil)` is the empty string, `ExportInt(nil)` is
0, `ExportFloat(nil)` is 0, `ExportBool(nil)` is false, and
`Export(nil)` is nil. -/
theorem C7_theorem :
    ExportString none = ""
    ∧ ExportInt none = 0
    ∧ ExportFloat none = 0
    ∧ ExportBool none = false
    ∧ Export none = none :=
  ⟨rfl, rfl, rfl, rfl, rfl⟩

/-- C8: on any Session, `SetGlobal` of a primitive followed immediately
by `Eval` of that global's name succeeds and returns a value that
round-trips to the original primitive through the corresponding export
helper; re-setting an existing name overwrites silently in both the
registry and the live VM. -/
theorem C8_theorem (r : Runner) (name : String) (s : String) (n : Int) (b : Bool)
    (q : ℚ) (v1 v2 : GoValue) :
    (((r.SetGlobal name (GoValue.str s)).Eval (Source.ident name)).1
        = Except.ok (marshal (GoValue.str s))
      ∧ ExportString (some (marshal (GoValue.str s))) = s)
    ∧ (((r.SetGlobal name (GoValue.int n)).Eval (Source.ident name)).1
        = Except.ok (marshal (GoValue.int n))
      ∧ ExportInt (some (marshal (GoValue.int n))) = n)
    ∧ (((r.SetGlobal name (GoValue.bool b)).Eval (Source.ident name)).1
        = Except.ok (marshal (GoValue.bool b))
      ∧ ExportBool (some (marshal (GoValue.bool b))) = b)
    ∧ (((r.SetGlobal name (GoValue.float q)).Eval (Source.ident name)).1
        = Except.ok (marshal (GoValue.float q))
      ∧ ExportFloat (some (marshal (GoValue.float q))) = q)
    ∧ ((r.SetGlobal name v1).SetGlobal name v2).globals name = some v2
    ∧ ((r.SetGlobal name v1).SetGlobal name v2).vm name = some (marshal v2) := by
  refine ⟨⟨?_, rfl⟩, ⟨?_, rfl⟩, ⟨?_, rfl⟩, ⟨?_, rfl⟩, ?_, ?_⟩
  · simp [Runner.SetGlobal, Runner.Eval, RunString, updateVM]
  · simp [Runner.SetGlobal, Runner.Eval, RunString, updateVM]
  · simp [Runner.SetGlobal, Runner.Eval, RunString, updateVM]
  · simp [Runner.SetGlobal, Runner.Eval, RunString, updateVM]
  · simp [Runner.SetGlobal, updateReg]
  · simp [Runner.SetGlobal, updateVM]

/-- C9: timers on one running bridge fire by increasing fire time with
ties broken by submission order — the fired sequence is sorted under
that order and is a permutation of the submitted batch — and the
concrete multi-timeout scenario (delays 150, 50, 100 submitted in that
order, appending 3, 1, 2) observes exactly the sequence 1, 2, 3. -/
theorem C9_theorem :
    (∀ ts : List TimerReq, List.Sorted timerLE (fireOrder ts))
    ∧ (∀ ts : List TimerReq, List.Perm (fireOrder ts) ts)
    ∧ observedTags multiTimeoutScenario = [1, 2, 3] := by
  refine ⟨fun ts => List.sorted_insertionSort timerLE ts,
    fun ts => List.perm_insertionSort timerLE ts, ?_⟩
  decide

/-- C10, counterexample: with web access enabled, a registry entry named
`fetchText` set through `SetGlobal` is not visible to the closure:
`setupVM` binds the registry first and then installs the fetch helpers
over it, so the closure sees the helper callable instead of the set
value. -/
theorem C10_counterexample :
    (({ globals := emptyReg, webAccessEnabled := true : ELRunner}.SetGlobal
        ("fetchText") (GoValue.int 1)).RunClosure (fun vm => vm) emptyVM) ("fetchText")
      = some (JSValue.fn ("fetchText"))
    ∧ some (JSValue.fn ("fetchText")) ≠ some (marshal (GoValue.int 1)) := by
  constructor
  · rfl
  · decide

/-- C10, amended: every closure submitted through `Run`, `RunOnLoop`,
`SetTimeout`, `SetInterval`, `RunAsync` (and, by the same `setupVM`
call, `RunAsyncWithTimeout` and `AwaitPromise`) first re-binds every
entry of the global registry into the VM; consequently a global set via
`SetGlobal` before the closure executes is visible inside it, and a
JavaScript-side overwrite of a registered name is reset at the next
closure boundary — except for the names `fetchText` and `fetchJSON`
when web access is enabled, which the fetch-helper installation
overwrites after the registry is bound (see the counterexample). -/
theorem C10_theorem (r : ELRunner) (vm : VMMap) (name : String) (v : GoValue)
    (junk : JSValue) (fn : VMMap → VMMap) (d : Nat) (code : Source)
    (hreg : r.globals name = some v)
    (hsafe : r.webAccessEnabled = false
      ∨ (name ≠ "fetchText" ∧ name ≠ "fetchJSON")) :
    r.setupVM vm name = some (marshal v)
    ∧ r.setupVM (updateVM vm name junk) name = some (marshal v)
    ∧ r.RunClosure fn vm = fn (r.setupVM vm)
    ∧ r.RunOnLoop fn vm = fn (r.setupVM vm)
    ∧ (r.SetTimeoutJob fn d).1 vm = fn (r.setupVM vm)
    ∧ (r.SetTimeoutJob fn d).2 = d
    ∧ (r.SetIntervalJob fn d).1 vm = fn (r.setupVM vm)
    ∧ r.RunAsync vm code = RunString (r.setupVM vm) code := by
  have key : ∀ w : VMMap, r.setupVM w name = some (marshal v) := by
    intro w
    rcases hsafe with hoff | ⟨hft, hfj⟩
    · simp [ELRunner.setupVM, hoff, bindGlobals, hreg]
    · by_cases hweb : r.webAccessEnabled
      · simp [ELRunner.setupVM, hweb, installFetchGlobals, updateVM, hft, hfj,
          bindGlobals, hreg]
      · simp [ELRunner.setupVM, hweb, bindGlobals, hreg]
  exact ⟨key vm, key (updateVM vm name junk), rfl, rfl, rfl, rfl, rfl, rfl⟩

/-- C10, witness: a runner without web access holding `x = 5` in its
registry exposes it (and restores it over a JS-side overwrite) to every
submitted closure. -/
theorem C10_witness :
    (ELRunner.new.SetGlobal ("x") (GoValue.int 5)).globals ("x")
        = some (GoValue.int 5)
    ∧ ((ELRunner.new.SetGlobal ("x") (GoValue.int 5)).webAccessEnabled = false
        ∨ (("x" : String) ≠ "fetchText" ∧ ("x" : String) ≠ "fetchJSON"))
    ∧ ((ELRunner.new.SetGlobal ("x") (GoValue.int 5)).setupVM emptyVM ("x")
        = some (marshal (GoValue.int 5))
      ∧ (ELRunner.new.SetGlobal ("x") (GoValue.int 5)).setupVM
          (updateVM emptyVM ("x") (JSValue.int 0)) ("x")
        = some (marshal (GoValue.int 5))
      ∧ (ELRunner.new.SetGlobal ("x") (GoValue.int 5)).RunClosure (fun w => w) emptyVM
        = (fun w => w) ((ELRunner.new.SetGlobal ("x") (GoValue.int 5)).setupVM emptyVM)
      ∧ (ELRunner.new.SetGlobal ("x") (GoValue.int 5)).RunOnLoop (fun w => w) emptyVM
        = (fun w => w) ((ELRunner.new.SetGlobal ("x") (GoValue.int 5)).setupVM emptyVM)
      ∧ ((ELRunner.new.SetGlobal ("x") (GoValue.int 5)).SetTimeoutJob (fun w => w) 3).1
          emptyVM
        = (fun w => w) ((ELRunner.new.SetGlobal ("x") (GoValue.int 5)).setupVM emptyVM)
      ∧ ((ELRunner.new.SetGlobal ("x") (GoValue.int 5)).SetTimeoutJob (fun w => w) 3).2
        = 3
      ∧ ((ELRunner.new.SetGlobal ("x") (GoValue.int 5)).SetIntervalJob (fun w => w) 3).1
          emptyVM
        = (fun w => w) ((ELRunner.new.SetGlobal ("x") (GoValue.int 5)).setupVM emptyVM)
      ∧ (ELRunner.new.SetGlobal ("x") (GoValue.int 5)).RunAsync emptyVM
          (Source.lit JSValue.null)
        = RunString ((ELRunner.new.SetGlobal ("x") (GoValue.int 5)).setupVM emptyVM)
            (Source.lit JSValue.null)) :=
  ⟨by simp [ELRunner.SetGlobal, ELRunner.new, updateReg],
    Or.inr (by constructor <;> decide),
    C10_theorem (ELRunner.new.SetGlobal ("x") (GoValue.int 5)) emptyVM ("x")
      (GoValue.int 5) (JSValue.int 0) (fun w => w) 3 (Source.lit JSValue.null)
      (by simp [ELRunner.SetGlobal, ELRunner.new, updateReg])
      (Or.inr (by constructor <;> decide))⟩

end GojaRunner
